import Mathlib

/-!
Verification of the SmartSeva session-memory and RAG pipeline.

This file gives a shallow embedding of the two core subsystems of the
repository — the session memory isolation layer (`src/core/memory_manager.py`)
and the RAG query pipeline (`src/core/rag_engine.py`) — together with the
configuration constants of `src/config/settings.py`, and proves the testable
properties of the specification against that embedding.

Python floats are modelled as rationals (`ℚ`), Python dictionaries as
association lists with first-match lookup, and generator functions as
functions returning the list of yielded fragments together with the final
state.
-/

namespace SmartSeva

/-- The entry `MEMORY_CONFIG["window_size"]` from `src/config/settings.py`. -/
def MEMORY_CONFIG_window_size : Nat := 6

/-- A single role-tagged message as stored in the per-session transcript
(`chat_messages` entries handled by `load_chat_messages_from_history`). -/
structure Message where
  role : String
  content : String
deriving DecidableEq, Repr

/-- One (human turn, assistant turn) pair held by a conversational buffer. -/
abbrev TurnPair := String × String

/-- Modelled from the spec: `langchain.memory.ConversationBufferWindowMemory`
is not part of this repository's sources.  Per the specification's data model,
a Conversational Buffer is an ordered sequence of (human-turn, assistant-turn)
pairs bounded to `k` pairs: committing a pair appends it and evicts the oldest
pairs first (FIFO) when the bound would be exceeded. -/
structure ConversationBufferWindowMemory where
  k : Nat
  buffer : List TurnPair
deriving DecidableEq, Repr

/-- A fresh, empty window memory with window size `k` pairs
(`ConversationBufferWindowMemory(k=..., return_messages=True)`). -/
def ConversationBufferWindowMemory.init (k : Nat) : ConversationBufferWindowMemory :=
  ⟨k, []⟩

/-- Python `memory.save_context({"input": inp}, {"output": outp})` on one buffer:
append the pair, then keep only the most recent `k` pairs. -/
def saveContextMem (m : ConversationBufferWindowMemory) (p : TurnPair) :
    ConversationBufferWindowMemory :=
  let b := m.buffer ++ [p]
  ⟨m.k, b.drop (b.length - m.k)⟩

/-- Python `memory.clear()` on one buffer. -/
def ConversationBufferWindowMemory.clear (m : ConversationBufferWindowMemory) :
    ConversationBufferWindowMemory :=
  ⟨m.k, []⟩

/-- Lookup in a Python-dict model: first binding whose key matches. -/
def dictGet {β : Type} : List (String × β) → String → Option β
  | [], _ => none
  | (k, v) :: rest, key => if k = key then some v else dictGet rest key

/-- Assignment `d[key] = v` in a Python-dict model: replace the first binding of `key`,
or append a new binding when the key is absent. -/
def dictSet {β : Type} : List (String × β) → String → β → List (String × β)
  | [], key, v => [(key, v)]
  | (k, w) :: rest, key, v =>
    if k = key then (key, v) :: rest else (k, w) :: dictSet rest key v

/-- Deletion `del d[key]` in a Python-dict model: remove every binding of `key`
(a Python dict holds at most one). -/
def dictDel {β : Type} (d : List (String × β)) (key : String) : List (String × β) :=
  d.filter (fun e => !(e.1 = key : Bool))

/-- State of `ChatMemoryManager` (`src/core/memory_manager.py`): the registry
of per-chat buffers, the focused chat id, and the configured window size
(`MEMORY_CONFIG.get("window_size", 10)`). -/
structure ChatMemoryManager where
  chat_memories : List (String × ConversationBufferWindowMemory)
  current_chat_id : Option String
  max_memory_size : Nat
deriving DecidableEq, Repr

/-- The manager as constructed by `ChatMemoryManager.__init__`. -/
def initManager : ChatMemoryManager :=
  { chat_memories := [], current_chat_id := none,
    max_memory_size := MEMORY_CONFIG_window_size }

/-- Python `create_new_chat_memory(chat_id)`.  A falsy (empty) `chat_id` is replaced
by a freshly minted UUID, modelled by the explicit `minted` argument.  The
registry entry is assigned unconditionally, so an existing buffer for the same
id is replaced by a fresh empty one.  Returns the chat id together with the
new state. -/
def create_new_chat_memory (st : ChatMemoryManager) (chat_id minted : String) :
    String × ChatMemoryManager :=
  let cid := if chat_id = "" then minted else chat_id
  let d := dictSet st.chat_memories cid (ConversationBufferWindowMemory.init st.max_memory_size)
  (cid, { st with chat_memories := d })

/-- Python `switch_to_chat(chat_id)`: create the buffer when absent, then focus
`chat_id`.  The Python body only returns `False` from its exception handler,
which no operation in the body can trigger, so the result is always `True`. -/
def switch_to_chat (st : ChatMemoryManager) (chat_id minted : String) :
    Bool × ChatMemoryManager :=
  let st1 :=
    if (dictGet st.chat_memories chat_id).isSome then st
    else (create_new_chat_memory st chat_id minted).2
  (true, { st1 with current_chat_id := some chat_id })

/-- Python `get_current_memory()`: the focused chat's buffer, or `none` when no chat
is focused (a falsy — empty — focused id also yields `none`). -/
def get_current_memory (st : ChatMemoryManager) : Option ConversationBufferWindowMemory :=
  match st.current_chat_id with
  | none => none
  | some cid => if cid = "" then none else dictGet st.chat_memories cid

/-- Python `save_context({"input": inp}, {"output": outp})` at manager level: commit
one pair to the focused buffer; reports failure without changing state when no
chat is focused. -/
def save_context (st : ChatMemoryManager) (inp outp : String) :
    Bool × ChatMemoryManager :=
  match st.current_chat_id with
  | none => (false, st)
  | some cid =>
    if cid = "" then (false, st)
    else
      match dictGet st.chat_memories cid with
      | none => (false, st)
      | some m =>
        let d := dictSet st.chat_memories cid (saveContextMem m (inp, outp))
        (true, { st with chat_memories := d })

/-- Python `load_memory_variables()["history"]`, as the list of pairs of the focused
buffer; empty when no chat is focused. -/
def load_memory_variables (st : ChatMemoryManager) : List TurnPair :=
  match get_current_memory st with
  | none => []
  | some m => m.buffer

/-- Python `clear_current_chat_memory()`: empty the focused buffer in place. -/
def clear_current_chat_memory (st : ChatMemoryManager) : Bool × ChatMemoryManager :=
  match st.current_chat_id with
  | none => (false, st)
  | some cid =>
    if cid = "" then (false, st)
    else
      match dictGet st.chat_memories cid with
      | none => (false, st)
      | some m =>
        (true, { st with chat_memories := dictSet st.chat_memories cid m.clear })

/-- Python `delete_chat_memory(chat_id)`: remove the buffer when present, clearing
the focus pointer if it pointed at `chat_id`; report failure when absent. -/
def delete_chat_memory (st : ChatMemoryManager) (chat_id : String) :
    Bool × ChatMemoryManager :=
  if (dictGet st.chat_memories chat_id).isSome then
    let st1 := { st with chat_memories := dictDel st.chat_memories chat_id }
    let st2 :=
      if st1.current_chat_id = some chat_id then { st1 with current_chat_id := none }
      else st1
    (true, st2)
  else (false, st)

/-- The pair-validation condition of `load_chat_messages_from_history`
(lines 154–157): the even-indexed message must be role-tagged `"user"`, the
following one `"Virtual Assistant"`, and both contents must be truthy
(non-empty). -/
def validPair (u a : Message) : Bool :=
  u.role = "user" && a.role = "Virtual Assistant" && !(u.content = "" : Bool)
    && !(a.content = "" : Bool)

/-- The `message_pairs` extraction loop of `load_chat_messages_from_history`
(`for i in range(0, len(chat_messages) - 1, 2)`): walk adjacent message pairs
at even indices, keeping the contents of the valid ones; a trailing unpaired
message falls outside the loop and is ignored. -/
def extractPairs : List Message → List TurnPair
  | u :: a :: rest =>
    (if validPair u a then [(u.content, a.content)] else []) ++ extractPairs rest
  | _ => []

/-- Number of `"Invalid message pair at index i"` warnings logged by the
extraction loop of `load_chat_messages_from_history`. -/
def invalidPairCount : List Message → Nat
  | u :: a :: rest => (if validPair u a then 0 else 1) + invalidPairCount rest
  | _ => 0

/-- The pair-loading loop of `load_chat_messages_from_history` (lines
174–183): `save_context` each pair in order, counting the successes. -/
def loadPairsLoop (acc : Nat × ChatMemoryManager) (ps : List TurnPair) :
    Nat × ChatMemoryManager :=
  ps.foldl (fun acc p =>
    let r := save_context acc.2 p.1 p.2
    (if r.1 then acc.1 + 1 else acc.1, r.2)) acc

/-- Python `load_chat_messages_from_history(chat_id, chat_messages)`: switch to the
chat (creating it when absent), clear its buffer, validate and extract the
adjacent message pairs, keep only the most recent `max(1, window_size // 2)`
of them, load those into the buffer, and report whether at least one pair was
loaded (an empty transcript reports success immediately). -/
def load_chat_messages_from_history (st : ChatMemoryManager)
    (chat_id minted : String) (chat_messages : List Message) :
    Bool × ChatMemoryManager :=
  let s := switch_to_chat st chat_id minted
  if !s.1 then (false, st)
  else
    let st2 := (clear_current_chat_memory s.2).2
    if chat_messages.isEmpty then (true, st2)
    else
      let message_pairs := extractPairs chat_messages
      let max_pairs := max 1 (st2.max_memory_size / 2)
      let recent_pairs := message_pairs.drop (message_pairs.length - max_pairs)
      let r := loadPairsLoop (0, st2) recent_pairs
      (r.1 > 0, r.2)

/-! ## RAG engine (`src/core/rag_engine.py`) -/

/-- A retrieved document: content, an optional relevance score (Python code
reads it defensively with `getattr(d, 'relevance_score', 0.5)`), and optional
`filename` / `page` metadata entries. -/
structure Document where
  page_content : String
  relevance_score : Option ℚ
  filename : Option String
  page : Option String
deriving DecidableEq, Repr

/-- Python `getattr(doc, 'relevance_score', 0.5)`. -/
def docScore (d : Document) : ℚ :=
  d.relevance_score.getD (mkRat 1 2)

/-- Result record of `_get_enhanced_context`: the context text, the
`{source, page}` citations, and the aggregate relevance score. -/
structure ContextInfo where
  context : String
  sources : List (String × String)
  relevance_score : ℚ
deriving DecidableEq, Repr

/-- The fixed no-documents context text of `_get_enhanced_context`. -/
def noInfoText : String :=
  "No specific service information found for this query. Please try rephrasing your question or contact a government helpline number."

/-- The fixed low-relevance context text of `_get_enhanced_context`. -/
def lowRelevanceText : String :=
  "No highly relevant BSK service information found."

/-- The `relevance_threshold = 0.3` constant of `_get_enhanced_context`. -/
def relevance_threshold : ℚ := mkRat 3 10

/-- The `max_docs = 5` constant of `_get_enhanced_context`. -/
def max_docs : Nat := 5

/-- The ordering used by `sorted(documents, key=..., reverse=True)`: the left
document's (defaulted) relevance score is at least the right one's. -/
abbrev docGE (a b : Document) : Prop := docScore b ≤ docScore a

instance : IsTotal Document docGE := ⟨fun a b => le_total (docScore b) (docScore a)⟩

instance : IsTrans Document docGE := ⟨fun _ _ _ h1 h2 => le_trans h2 h1⟩

/-- Python `sorted(documents, key=lambda d: getattr(d, 'relevance_score', 0.5),
reverse=True)`: Python's `sorted` is stable, so a descending stable sort; it
is modelled by insertion sort with the total preorder `docGE`, which is
sorted and stable. -/
def sortDocsDesc (documents : List Document) : List Document :=
  documents.insertionSort docGE

/-- The `filtered_docs` value: the sorted documents whose score reaches the
relevance threshold. -/
def filteredDocs (documents : List Document) : List Document :=
  (sortDocsDesc documents).filter (fun d => relevance_threshold ≤ docScore d)

/-- The value `selected_docs = filtered_docs[:max_docs]`. -/
def selectedDocs (documents : List Document) : List Document :=
  (filteredDocs documents).take max_docs

/-- Python `f"Source {i} (from {source}):\n{doc.page_content}"` with
`source = metadata.get('filename', f'Document {i}')`. -/
def formatDoc (i : Nat) (d : Document) : String :=
  let source := d.filename.getD ("Document " ++ toString i)
  "Source " ++ toString i ++ " (from " ++ source ++ "):\n" ++ d.page_content

/-- The `{"source": ..., "page": ...}` citation entry for one document. -/
def sourceEntry (d : Document) (i : Nat) : String × String :=
  (d.filename.getD ("Document " ++ toString i), d.page.getD "Unknown")

/-- Python `_get_enhanced_context(documents, query, chat_id)` (the `query` and
`chat_id` arguments only feed log lines).  Empty input short-circuits to the
no-documents result; otherwise sort, filter, cap, format, and average the
retained scores. -/
def get_enhanced_context (documents : List Document) : ContextInfo :=
  if documents.isEmpty then
    ⟨noInfoText, [], 0⟩
  else
    let selected := selectedDocs documents
    let context_parts := (List.enumFrom 1 selected).map (fun p => formatDoc p.1 p.2)
    let sources := (List.enumFrom 1 selected).map (fun p => sourceEntry p.2 p.1)
    let total_relevance := (selected.map docScore).sum
    let avg_relevance :=
      if selected.isEmpty then 0 else total_relevance / (selected.length : ℚ)
    ⟨if context_parts.isEmpty then lowRelevanceText
      else String.intercalate "\n\n" context_parts,
     sources, avg_relevance⟩

/-! ## Query pipeline (`RAGEngine.process_query` and `_validate_query`) -/

/-- The set of characters Python's `str.strip()` removes. -/
def isPySpace (c : Char) : Bool :=
  c = ' ' || c = '\t' || c = '\n' || c = '\r' || c = '\x0b' || c = '\x0c'

/-- Python `s.strip()`: drop leading and trailing whitespace. -/
def pyStrip (s : String) : String :=
  ⟨((s.data.dropWhile isPySpace).reverse.dropWhile isPySpace).reverse⟩

/-- Result of `_validate_query`. -/
structure ValidationResult where
  valid : Bool
  reason : String
  processed_query : String
deriving DecidableEq, Repr

/-- Python `_validate_query(query)`: reject empty/whitespace-only queries and
queries longer than 2000 characters; otherwise return the stripped query. -/
def validate_query (query : String) : ValidationResult :=
  if query = "" || pyStrip query = "" then ⟨false, "Empty query", ""⟩
  else if (pyStrip query).length < 1 then ⟨false, "Query too short", ""⟩
  else if query.length > 2000 then ⟨false, "Query too long", ""⟩
  else ⟨true, "", pyStrip query⟩

/-- The streaming-timeout ceiling (`if time.time() - start_time > 60`),
in seconds. -/
def streaming_timeout_seconds : ℚ := mkRat 60 1

/-- One streamed chunk together with the elapsed wall-clock time (seconds
since `start_time`) observed by the timeout check that runs right after the
chunk is yielded. -/
abbrev TimedChunk := String × ℚ

/-- The streaming loop of `process_query` (lines 235–244): a falsy (empty)
chunk is skipped entirely, a non-empty chunk is accumulated and yielded, and
after yielding it the loop breaks when the elapsed time exceeds the 60-second
ceiling.  Returns the list of yielded fragments. -/
def consumeStream : List TimedChunk → List String
  | [] => []
  | (c, t) :: rest =>
    if c = "" then consumeStream rest
    else c :: (if streaming_timeout_seconds < t then [] else consumeStream rest)

/-- External-collaborator inputs of one `process_query` call: whether the
generation chain is available (after `_ensure_chain_availability`), and the
timed chunks the chain's stream would produce. -/
structure PipelineEnv where
  chain_available : Bool
  chunks : List TimedChunk
deriving DecidableEq, Repr

/-- Observable outcome of one `process_query` call: the yielded fragments,
whether the retrieval/generation chain was actually streamed, whether a pair
was committed to a buffer, and the final memory-manager state. -/
structure QueryOutcome where
  fragments : List String
  generationInvoked : Bool
  committed : Bool
  finalState : ChatMemoryManager
deriving DecidableEq, Repr

/-- The chain-unavailable message of `process_query`. -/
def unavailableMsg : String :=
  "RAG system is currently unavailable. Please ensure documents are loaded and try again."

/-- Python `process_query(query, chat_id)` as a function from the manager state and
the environment to the observable outcome: validate (yielding exactly the one
error fragment on failure), focus the chat when a truthy id is given, check
chain availability, stream with the timeout ceiling, and commit the
accumulated response to the focused buffer when its stripped form is
non-empty. -/
def process_query (env : PipelineEnv) (st : ChatMemoryManager)
    (query chat_id minted : String) : QueryOutcome :=
  let v := validate_query query
  if !v.valid then
    ⟨["Invalid query: " ++ v.reason], false, false, st⟩
  else
    let st1 := if !(chat_id = "" : Bool) then (switch_to_chat st chat_id minted).2 else st
    if !env.chain_available then
      ⟨[unavailableMsg], false, false, st1⟩
    else
      let yielded := consumeStream env.chunks
      let full_response := String.join yielded
      if !(pyStrip full_response = "" : Bool) then
        let r := save_context st1 v.processed_query full_response
        ⟨yielded, true, r.1, r.2⟩
      else
        ⟨yielded, true, false, st1⟩

/-! ## Operation sequences over the memory manager -/

/-- One public operation of the memory isolation layer, for stating
invariants over arbitrary operation sequences. -/
inductive MemOp where
  | create (chat_id minted : String)
  | switch (chat_id minted : String)
  | commit (inp outp : String)
  | clear
  | delete (chat_id : String)
deriving DecidableEq, Repr

/-- Apply one memory-manager operation to the state. -/
def applyOp (st : ChatMemoryManager) : MemOp → ChatMemoryManager
  | .create cid minted => (create_new_chat_memory st cid minted).2
  | .switch cid minted => (switch_to_chat st cid minted).2
  | .commit i o => (save_context st i o).2
  | .clear => (clear_current_chat_memory st).2
  | .delete cid => (delete_chat_memory st cid).2

/-- Apply a sequence of memory-manager operations, oldest first. -/
def applyOps (st : ChatMemoryManager) (ops : List MemOp) : ChatMemoryManager :=
  ops.foldl applyOp st

/-- Registry invariant: every buffer's window size equals the configured
window size, and its length never exceeds that window. -/
def BuffersBounded (st : ChatMemoryManager) : Prop :=
  ∀ cid m, dictGet st.chat_memories cid = some m →
    m.k = st.max_memory_size ∧ m.buffer.length ≤ m.k

/-- A well-formed persisted transcript for a list of conversation pairs, in
the role-tagged format `load_chat_messages_from_history` accepts. -/
def pairsToMessages (ps : List TurnPair) : List Message :=
  ps.flatMap (fun p => [⟨"user", p.1⟩, ⟨"Virtual Assistant", p.2⟩])

/-- Abbreviation for characterisation lemmas: the manager state with chat
`cid`'s buffer set to `m` and `cid` focused. -/
def setChat (st : ChatMemoryManager) (cid : String) (m : ConversationBufferWindowMemory) :
    ChatMemoryManager :=
  { st with chat_memories := dictSet st.chat_memories cid m, current_chat_id := some cid }

/-- The `recent_pairs` value computed by `load_chat_messages_from_history`
for a window size `W`: the most recent `max(1, W // 2)` extracted pairs. -/
def recentPairs (W : Nat) (msgs : List Message) : List TurnPair :=
  (extractPairs msgs).drop ((extractPairs msgs).length - max 1 (W / 2))

/-- The last `W` elements of a pair list (the contents a `W`-bounded buffer
retains after the list is committed into it in order). -/
def windowed (W : Nat) (ps : List TurnPair) : List TurnPair :=
  ps.drop (ps.length - W)

/-! ## Dictionary lemmas -/

theorem dictGet_dictSet {β : Type} (d : List (String × β)) (k k' : String) (v : β) :
    dictGet (dictSet d k v) k' = if k = k' then some v else dictGet d k' := by
  induction d with
  | nil => simp [dictGet, dictSet]
  | cons e rest ih =>
    obtain ⟨ek, ev⟩ := e
    by_cases h1 : ek = k
    · subst h1
      by_cases h2 : ek = k' <;> simp [dictGet, dictSet, h2]
    · by_cases h2 : ek = k'
      · subst h2
        simp [dictGet, dictSet, h1, Ne.symm h1]
      · simp [dictGet, dictSet, h1, h2, ih]

theorem dictGet_dictDel {β : Type} (d : List (String × β)) (k k' : String) :
    dictGet (dictDel d k) k' = if k = k' then none else dictGet d k' := by
  induction d with
  | nil => simp [dictGet, dictDel]
  | cons e rest ih =>
    obtain ⟨ek, ev⟩ := e
    by_cases h1 : ek = k
    · subst h1
      by_cases h2 : ek = k'
      · subst h2
        simpa [dictDel, List.filter] using ih
      · simp [dictGet, dictDel, List.filter, h2] at ih ⊢
        simpa [h2] using ih
    · by_cases h2 : ek = k'
      · subst h2
        simp [dictGet, dictDel, List.filter, h1, Ne.symm h1]
      · simp [dictGet, dictDel, List.filter, h1, h2] at ih ⊢
        exact ih

theorem dictSet_dictSet {β : Type} (d : List (String × β)) (k : String) (v w : β) :
    dictSet (dictSet d k v) k w = dictSet d k w := by
  induction d with
  | nil => simp [dictSet]
  | cons e rest ih =>
    obtain ⟨ek, ev⟩ := e
    by_cases h1 : ek = k <;> simp [dictSet, h1, ih]

/-! ## Window-buffer lemmas -/

theorem saveContextMem_k (m : ConversationBufferWindowMemory) (p : TurnPair) :
    (saveContextMem m p).k = m.k := rfl

theorem length_saveContextMem (m : ConversationBufferWindowMemory) (p : TurnPair) :
    (saveContextMem m p).buffer.length = min (m.buffer.length + 1) m.k := by
  simp [saveContextMem]
  omega

theorem length_saveContextMem_le (m : ConversationBufferWindowMemory) (p : TurnPair) :
    (saveContextMem m p).buffer.length ≤ m.k := by
  rw [length_saveContextMem]; omega

/-- FIFO eviction on a full buffer: the oldest pair is dropped. -/
theorem saveContextMem_full (m : ConversationBufferWindowMemory) (p : TurnPair)
    (hk : 0 < m.k) (h : m.buffer.length = m.k) :
    (saveContextMem m p).buffer = m.buffer.tail ++ [p] := by
  have h1 : m.buffer.length + 1 - m.k = 1 := by omega
  have h2 : (1 : Nat) ≤ m.buffer.length := by omega
  simp only [saveContextMem, List.length_append, List.length_singleton, h1,
    List.drop_append_of_le_length h2, List.drop_one]

/-- No eviction below the window bound: the pair is appended. -/
theorem saveContextMem_not_full (m : ConversationBufferWindowMemory) (p : TurnPair)
    (h : m.buffer.length < m.k) :
    (saveContextMem m p).buffer = m.buffer ++ [p] := by
  have h1 : m.buffer.length + 1 - m.k = 0 := by omega
  simp [saveContextMem, h1]

/-! ## Invariant preservation (claim C1 support) -/

theorem max_memory_size_applyOp (st : ChatMemoryManager) (op : MemOp) :
    (applyOp st op).max_memory_size = st.max_memory_size := by
  cases op with
  | create cid minted => rfl
  | switch cid minted =>
    simp only [applyOp, switch_to_chat]
    by_cases hp : (dictGet st.chat_memories cid).isSome <;>
      simp [hp, create_new_chat_memory]
  | commit i o =>
    simp only [applyOp, save_context]
    cases st.current_chat_id with
    | none => rfl
    | some cid =>
      by_cases hcid : cid = ""
      · simp [hcid]
      · simp only [hcid]
        cases dictGet st.chat_memories cid <;> simp [hcid]
  | clear =>
    simp only [applyOp, clear_current_chat_memory]
    cases st.current_chat_id with
    | none => rfl
    | some cid =>
      by_cases hcid : cid = ""
      · simp [hcid]
      · simp only [hcid]
        cases dictGet st.chat_memories cid <;> simp [hcid]
  | delete cid =>
    simp only [applyOp, delete_chat_memory]
    by_cases hp : (dictGet st.chat_memories cid).isSome
    · by_cases hcur : st.current_chat_id = some cid <;> simp [hp, hcur]
    · simp [hp]

/-- Any registry entry after one operation is an old entry, a fresh empty
buffer of the configured window size, a cleared old entry, or an old entry
with one pair committed. -/
theorem applyOp_registry (st : ChatMemoryManager) (op : MemOp) (c : String)
    (m : ConversationBufferWindowMemory)
    (hm : dictGet (applyOp st op).chat_memories c = some m) :
    dictGet st.chat_memories c = some m ∨
    m = ConversationBufferWindowMemory.init st.max_memory_size ∨
    (∃ m0, dictGet st.chat_memories c = some m0 ∧ m = m0.clear) ∨
    (∃ m0 p, dictGet st.chat_memories c = some m0 ∧ m = saveContextMem m0 p) := by
  cases op with
  | create cid minted =>
    simp only [applyOp, create_new_chat_memory] at hm
    by_cases hcid : cid = ""
    · rw [if_pos hcid, dictGet_dictSet] at hm
      split at hm
      · right; left
        exact (Option.some_inj.mp hm).symm
      · left; exact hm
    · rw [if_neg hcid, dictGet_dictSet] at hm
      split at hm
      · right; left
        exact (Option.some_inj.mp hm).symm
      · left; exact hm
  | switch cid minted =>
    simp only [applyOp, switch_to_chat] at hm
    by_cases hp : (dictGet st.chat_memories cid).isSome
    · simp only [hp, if_true] at hm
      left; exact hm
    · simp only [hp, Bool.false_eq_true, if_false, create_new_chat_memory] at hm
      by_cases hcid : cid = ""
      · rw [if_pos hcid, dictGet_dictSet] at hm
        split at hm
        · right; left
          exact (Option.some_inj.mp hm).symm
        · left; exact hm
      · rw [if_neg hcid, dictGet_dictSet] at hm
        split at hm
        · right; left
          exact (Option.some_inj.mp hm).symm
        · left; exact hm
  | commit i o =>
    simp only [applyOp, save_context] at hm
    cases hcur : st.current_chat_id with
    | none => rw [hcur] at hm; left; exact hm
    | some cid =>
      rw [hcur] at hm
      by_cases hcid : cid = ""
      · simp only [hcid, if_true] at hm
        left; exact hm
      · simp only [hcid, if_false] at hm
        cases hg : dictGet st.chat_memories cid with
        | none => rw [hg] at hm; left; exact hm
        | some m0 =>
          rw [hg] at hm
          simp only at hm
          rw [dictGet_dictSet] at hm
          split at hm
          next hc =>
            right; right; right
            exact ⟨m0, (i, o), by rw [← hc]; exact hg, (Option.some_inj.mp hm).symm⟩
          next => left; exact hm
  | clear =>
    simp only [applyOp, clear_current_chat_memory] at hm
    cases hcur : st.current_chat_id with
    | none => rw [hcur] at hm; left; exact hm
    | some cid =>
      rw [hcur] at hm
      by_cases hcid : cid = ""
      · simp only [hcid, if_true] at hm
        left; exact hm
      · simp only [hcid, if_false] at hm
        cases hg : dictGet st.chat_memories cid with
        | none => rw [hg] at hm; left; exact hm
        | some m0 =>
          rw [hg] at hm
          simp only at hm
          rw [dictGet_dictSet] at hm
          split at hm
          next hc =>
            right; right; left
            exact ⟨m0, by rw [← hc]; exact hg, (Option.some_inj.mp hm).symm⟩
          next => left; exact hm
  | delete cid =>
    simp only [applyOp, delete_chat_memory] at hm
    by_cases hp : (dictGet st.chat_memories cid).isSome
    · simp only [hp, if_true] at hm
      by_cases hcur : st.current_chat_id = some cid <;>
        · simp only [hcur, if_true, if_false] at hm
          rw [dictGet_dictDel] at hm
          split at hm
          · exact absurd hm (by simp)
          · left; exact hm
    · simp only [hp, if_false] at hm
      left; exact hm

theorem buffersBounded_applyOp (st : ChatMemoryManager) (op : MemOp)
    (h : BuffersBounded st) : BuffersBounded (applyOp st op) := by
  intro c m hm
  rw [max_memory_size_applyOp]
  rcases applyOp_registry st op c m hm with h0 | h0 | ⟨m0, hg, h0⟩ | ⟨m0, p, hg, h0⟩
  · exact h c m h0
  · subst h0
    exact ⟨rfl, Nat.zero_le _⟩
  · subst h0
    exact ⟨(h c m0 hg).1, Nat.zero_le _⟩
  · subst h0
    exact ⟨(h c m0 hg).1, length_saveContextMem_le m0 p⟩

theorem buffersBounded_applyOps (st : ChatMemoryManager) (ops : List MemOp)
    (h : BuffersBounded st) : BuffersBounded (applyOps st ops) := by
  induction ops generalizing st with
  | nil => exact h
  | cons op ops ih => exact ih (applyOp st op) (buffersBounded_applyOp st op h)

theorem buffersBounded_init : BuffersBounded initManager := by
  intro c m hm
  simp [initManager, dictGet] at hm

theorem max_memory_size_applyOps (st : ChatMemoryManager) (ops : List MemOp) :
    (applyOps st ops).max_memory_size = st.max_memory_size := by
  induction ops generalizing st with
  | nil => rfl
  | cons op ops ih =>
    rw [applyOps, List.foldl_cons, ← applyOps, ih, max_memory_size_applyOp]

/-! ## Rehydration lemmas -/

theorem dictSet_get_same {β : Type} (d : List (String × β)) (k : String) (v : β)
    (h : dictGet d k = some v) : dictSet d k v = d := by
  induction d with
  | nil => simp [dictGet] at h
  | cons e rest ih =>
    obtain ⟨ek, ev⟩ := e
    by_cases h1 : ek = k
    · subst h1
      simp [dictGet] at h
      simp [dictSet, h]
    · simp [dictGet, h1] at h
      simp [dictSet, h1, ih h]

theorem foldl_saveContextMem (ps : List TurnPair) (m : ConversationBufferWindowMemory)
    (hb : m.buffer.length ≤ m.k) :
    ps.foldl saveContextMem m
      = ⟨m.k, (m.buffer ++ ps).drop (m.buffer.length + ps.length - m.k)⟩ := by
  induction ps generalizing m with
  | nil =>
    have h0 : m.buffer.length - m.k = 0 := by omega
    simp [h0]
  | cons p ps ih =>
    rw [List.foldl_cons]
    have hb' : (saveContextMem m p).buffer.length ≤ (saveContextMem m p).k := by
      rw [saveContextMem_k]
      exact length_saveContextMem_le m p
    rw [ih (saveContextMem m p) hb', saveContextMem_k]
    have hj : m.buffer.length + 1 - m.k ≤ (m.buffer ++ [p]).length := by
      simp
    have hbuf : (saveContextMem m p).buffer
        = (m.buffer ++ [p]).drop (m.buffer.length + 1 - m.k) := by
      simp [saveContextMem]
    have hlist : (m.buffer ++ [p]) ++ ps = m.buffer ++ p :: ps := by simp
    have heq : m.buffer.length + 1 - m.k
          + ((List.drop (m.buffer.length + 1 - m.k) (m.buffer ++ [p])).length
              + ps.length - m.k)
        = m.buffer.length + (p :: ps).length - m.k := by
      simp only [List.length_drop, List.length_append, List.length_cons,
        List.length_nil]
      omega
    rw [hbuf, ← List.drop_append_of_le_length hj, List.drop_drop, hlist, heq]

theorem loadPairsLoop_spec (ps : List TurnPair) (n : Nat) (st : ChatMemoryManager)
    (cid : String) (m : ConversationBufferWindowMemory)
    (hcid : cid ≠ "") (hcur : st.current_chat_id = some cid)
    (hget : dictGet st.chat_memories cid = some m) :
    loadPairsLoop (n, st) ps
      = (n + ps.length,
         { st with chat_memories := dictSet st.chat_memories cid (ps.foldl saveContextMem m) }) := by
  induction ps generalizing n st m with
  | nil =>
    simp [loadPairsLoop, dictSet_get_same st.chat_memories cid m hget]
  | cons p ps ih =>
    have hsave : save_context st p.1 p.2
        = (true, { st with chat_memories := dictSet st.chat_memories cid (saveContextMem m (p.1, p.2)) }) := by
      simp [save_context, hcur, hcid, hget]
    have hstep : loadPairsLoop (n, st) (p :: ps)
        = loadPairsLoop (n + 1, { st with chat_memories := dictSet st.chat_memories cid (saveContextMem m (p.1, p.2)) }) ps := by
      simp [loadPairsLoop, hsave]
    rw [hstep, ih (n + 1) _ (saveContextMem m (p.1, p.2)) (by simpa using hcur)
      (by rw [dictGet_dictSet]; simp)]
    simp [dictSet_dictSet]
    omega

theorem switch_clear_spec (st : ChatMemoryManager) (cid minted : String)
    (hcid : cid ≠ "")
    (hk : ∀ m, dictGet st.chat_memories cid = some m → m.k = st.max_memory_size) :
    (clear_current_chat_memory (switch_to_chat st cid minted).2).2
      = setChat st cid ⟨st.max_memory_size, []⟩ := by
  by_cases hp : (dictGet st.chat_memories cid).isSome
  · obtain ⟨m0, hm0⟩ := Option.isSome_iff_exists.mp hp
    have hst1 : (switch_to_chat st cid minted).2
        = { st with current_chat_id := some cid } := by
      simp [switch_to_chat, hp]
    rw [hst1]
    have hk0 := hk m0 hm0
    simp [clear_current_chat_memory, hcid, hm0, ConversationBufferWindowMemory.clear,
      hk0, setChat]
  · have hg : dictGet st.chat_memories cid = none := by
      cases h : dictGet st.chat_memories cid
      · rfl
      · rw [h] at hp; simp at hp
    have hst1 : (switch_to_chat st cid minted).2
        = setChat st cid (ConversationBufferWindowMemory.init st.max_memory_size) := by
      simp [switch_to_chat, hp, create_new_chat_memory, hcid, setChat]
    rw [hst1]
    simp [clear_current_chat_memory, hcid, dictGet_dictSet, dictSet_dictSet,
      ConversationBufferWindowMemory.clear, ConversationBufferWindowMemory.init, setChat]

/-- Full characterisation of `load_chat_messages_from_history` under a
consistent registry: the returned flag is "transcript empty or at least one
retained pair", and the chat's buffer ends up holding exactly the retained
recent pairs (windowed by the buffer bound). -/
theorem load_history_spec (st : ChatMemoryManager) (cid minted : String)
    (msgs : List Message)
    (hcid : cid ≠ "")
    (hk : ∀ m, dictGet st.chat_memories cid = some m → m.k = st.max_memory_size) :
    load_chat_messages_from_history st cid minted msgs
      = ((msgs.isEmpty || !(recentPairs st.max_memory_size msgs).isEmpty),
         setChat st cid
           ⟨st.max_memory_size,
            windowed st.max_memory_size (recentPairs st.max_memory_size msgs)⟩) := by
  have hsw : (switch_to_chat st cid minted).1 = true := rfl
  have hst2 := switch_clear_spec st cid minted hcid hk
  rw [load_chat_messages_from_history, hsw]
  simp only [Bool.not_true, Bool.false_eq_true, if_false, hst2]
  by_cases hempty : msgs.isEmpty
  · have : msgs = [] := by simpa using hempty
    subst this
    simp [extractPairs, recentPairs, windowed]
  · simp only [hempty, Bool.false_eq_true, if_false, Bool.false_or]
    rw [loadPairsLoop_spec _ 0 _ cid ⟨st.max_memory_size, []⟩ hcid rfl
      (by simp [setChat, dictGet_dictSet])]
    rw [foldl_saveContextMem _ _ (by simp)]
    simp only [setChat, dictSet_dictSet, List.nil_append, List.length_nil, Nat.zero_add]
    refine Prod.ext ?_ ?_
    · show decide ((recentPairs st.max_memory_size msgs).length > 0)
        = !(recentPairs st.max_memory_size msgs).isEmpty
      cases recentPairs st.max_memory_size msgs <;> simp
    · show ({ st with chat_memories := dictSet st.chat_memories cid ⟨st.max_memory_size, windowed st.max_memory_size (recentPairs st.max_memory_size msgs)⟩, current_chat_id := some cid } : ChatMemoryManager) = _
      simp [recentPairs, windowed]

/-! ## Transcript extraction lemmas -/

theorem extractPairs_pairsToMessages (ps : List TurnPair)
    (h : ∀ p ∈ ps, p.1 ≠ "" ∧ p.2 ≠ "") :
    extractPairs (pairsToMessages ps) = ps := by
  induction ps with
  | nil => rfl
  | cons p ps ih =>
    have hp := h p (by simp)
    have hrest : ∀ q ∈ ps, q.1 ≠ "" ∧ q.2 ≠ "" := fun q hq => h q (by simp [hq])
    simp only [pairsToMessages, List.flatMap_cons, List.cons_append, List.nil_append]
    rw [extractPairs]
    simp [validPair, hp.1, hp.2]
    exact ih hrest

theorem extractPairs_even_append : ∀ (msgs rest : List Message),
    msgs.length % 2 = 0 →
    extractPairs (msgs ++ rest) = extractPairs msgs ++ extractPairs rest
  | [], rest, _ => by simp [extractPairs]
  | [u], _, h => by simp at h
  | u :: a :: t, rest, h => by
    have ht : t.length % 2 = 0 := by
      simp only [List.length_cons] at h
      omega
    simp only [List.cons_append, extractPairs, List.append_eq,
      extractPairs_even_append t rest ht, List.append_assoc]

theorem invalidPairCount_even_append : ∀ (msgs rest : List Message),
    msgs.length % 2 = 0 →
    invalidPairCount (msgs ++ rest) = invalidPairCount msgs + invalidPairCount rest
  | [], rest, _ => by simp [invalidPairCount]
  | [u], _, h => by simp at h
  | u :: a :: t, rest, h => by
    have ht : t.length % 2 = 0 := by
      simp only [List.length_cons] at h
      omega
    simp only [List.cons_append, invalidPairCount, List.append_eq,
      invalidPairCount_even_append t rest ht]
    omega

/-! ## Streaming lemmas -/

theorem consumeStream_append_of_no_timeout (pre rest : List TimedChunk)
    (h : ∀ p ∈ pre, ¬ streaming_timeout_seconds < p.2) :
    consumeStream (pre ++ rest)
      = (pre.filter (fun p => !(p.1 = "" : Bool))).map Prod.fst ++ consumeStream rest := by
  induction pre with
  | nil => simp
  | cons q pre ih =>
    obtain ⟨c, t⟩ := q
    have hq := h (c, t) (by simp)
    have hrest : ∀ p ∈ pre, ¬ streaming_timeout_seconds < p.2 :=
      fun p hp => h p (by simp [hp])
    by_cases hc : c = ""
    · simp [consumeStream, hc, ih hrest, List.filter]
    · simp [consumeStream, hc, hq, ih hrest, List.filter]

theorem consumeStream_timeout (c : String) (t : ℚ) (rest : List TimedChunk)
    (hc : c ≠ "") (ht : streaming_timeout_seconds < t) :
    consumeStream ((c, t) :: rest) = [c] := by
  simp [consumeStream, hc, ht]

/-! ## String lemmas -/

theorem string_eq_empty_of_length_lt_one (s : String) (h : s.length < 1) : s = "" := by
  obtain ⟨l⟩ := s
  cases l with
  | nil => rfl
  | cons c cs => simp [String.length] at h

/-! ## Claim C1 -/

/-- C1: for every session identifier and every sequence of memory-manager
operations starting from the freshly initialised manager, the session's
conversational buffer holds at most `window_size` (6) pairs at all times;
moreover a commit on a full buffer evicts exactly the oldest pair (FIFO),
while a commit on a buffer below the bound appends without eviction. -/
theorem C1_buffer_window_invariant :
    (∀ (ops : List MemOp) (cid : String) (m : ConversationBufferWindowMemory),
        dictGet (applyOps initManager ops).chat_memories cid = some m →
        m.buffer.length ≤ MEMORY_CONFIG_window_size) ∧
    (∀ (m : ConversationBufferWindowMemory) (p : TurnPair), 0 < m.k →
        (m.buffer.length = m.k →
          (saveContextMem m p).buffer = m.buffer.tail ++ [p]) ∧
        (m.buffer.length < m.k →
          (saveContextMem m p).buffer = m.buffer ++ [p])) := by
  constructor
  · intro ops cid m hm
    have hb := buffersBounded_applyOps initManager ops buffersBounded_init cid m hm
    have hw : (applyOps initManager ops).max_memory_size = MEMORY_CONFIG_window_size :=
      max_memory_size_applyOps initManager ops
    rw [hw] at hb
    calc m.buffer.length ≤ m.k := hb.2
      _ = MEMORY_CONFIG_window_size := hb.1
  · intro m p hk
    exact ⟨fun h => saveContextMem_full m p hk h, fun h => saveContextMem_not_full m p h⟩

/-- Witness for C1 at a concrete operation sequence: seven commits into a
freshly created session leave exactly the six most recent pairs, and an
eighth commit on the full buffer evicts the oldest pair. -/
theorem C1_buffer_window_invariant_witness :
    dictGet (applyOps initManager [MemOp.create "a" "u", MemOp.switch "a" "u", MemOp.commit "q1" "r1", MemOp.commit "q2" "r2", MemOp.commit "q3" "r3", MemOp.commit "q4" "r4", MemOp.commit "q5" "r5", MemOp.commit "q6" "r6", MemOp.commit "q7" "r7"]).chat_memories "a" = some ⟨6, [("q2","r2"),("q3","r3"),("q4","r4"),("q5","r5"),("q6","r6"),("q7","r7")]⟩ ∧
    (⟨6, [("q2","r2"),("q3","r3"),("q4","r4"),("q5","r5"),("q6","r6"),("q7","r7")]⟩ : ConversationBufferWindowMemory).buffer.length ≤ MEMORY_CONFIG_window_size ∧
    0 < (⟨6, [("q2","r2"),("q3","r3"),("q4","r4"),("q5","r5"),("q6","r6"),("q7","r7")]⟩ : ConversationBufferWindowMemory).k ∧
    (saveContextMem ⟨6, [("q2","r2"),("q3","r3"),("q4","r4"),("q5","r5"),("q6","r6"),("q7","r7")]⟩ ("q8","r8")).buffer = [("q3","r3"),("q4","r4"),("q5","r5"),("q6","r6"),("q7","r7"),("q8","r8")] := by
  refine ⟨by decide, ?_, by decide, ?_⟩
  · exact C1_buffer_window_invariant.1
      [MemOp.create "a" "u", MemOp.switch "a" "u", MemOp.commit "q1" "r1", MemOp.commit "q2" "r2", MemOp.commit "q3" "r3", MemOp.commit "q4" "r4", MemOp.commit "q5" "r5", MemOp.commit "q6" "r6", MemOp.commit "q7" "r7"]
      "a" ⟨6, [("q2","r2"),("q3","r3"),("q4","r4"),("q5","r5"),("q6","r6"),("q7","r7")]⟩
      (by decide)
  · have h := (C1_buffer_window_invariant.2
      ⟨6, [("q2","r2"),("q3","r3"),("q4","r4"),("q5","r5"),("q6","r6"),("q7","r7")]⟩
      ("q8","r8") (by decide)).1 (by decide)
    rw [h]
    decide

/-! ## Claim C2 -/

/-- C2 fails on the code: rehydrating a transcript of 7 well-formed pairs
(7 > window_size = 6) loads only the 3 most recent pairs — the code caps the
retained set at `max(1, window_size // 2)`, not `window_size` — so the buffer
does not hold the 6 most recent pairs the claim requires. -/
theorem C2_rehydrate_window_counterexample :
    (load_chat_messages_from_history initManager "s1" "u0" (pairsToMessages [("q1","a1"),("q2","a2"),("q3","a3"),("q4","a4"),("q5","a5"),("q6","a6"),("q7","a7")])).2.chat_memories = [("s1", ⟨6, [("q5","a5"),("q6","a6"),("q7","a7")]⟩)] ∧
    MEMORY_CONFIG_window_size = 6 ∧
    ([("q5","a5"),("q6","a6"),("q7","a7")] : List TurnPair).length ≠ MEMORY_CONFIG_window_size := by
  exact ⟨by decide, rfl, by decide⟩

/-- C2 (amended): for every transcript of N well-formed (user, assistant)
pairs with N > max(1, window_size // 2), rehydration loads into the session's
buffer exactly the most recent max(1, window_size // 2) pairs (3 under the
default window_size = 6), in order with the oldest of the retained set first,
and reports success. -/
theorem C2_rehydrate_window_amended (st : ChatMemoryManager) (cid minted : String)
    (ps : List TurnPair)
    (hcid : cid ≠ "")
    (hW : st.max_memory_size = MEMORY_CONFIG_window_size)
    (hk : ∀ m, dictGet st.chat_memories cid = some m → m.k = st.max_memory_size)
    (hps : ∀ p ∈ ps, p.1 ≠ "" ∧ p.2 ≠ "")
    (hlen : max 1 (MEMORY_CONFIG_window_size / 2) < ps.length) :
    (load_chat_messages_from_history st cid minted (pairsToMessages ps)).1 = true ∧
    dictGet (load_chat_messages_from_history st cid minted (pairsToMessages ps)).2.chat_memories cid
      = some ⟨MEMORY_CONFIG_window_size, ps.drop (ps.length - max 1 (MEMORY_CONFIG_window_size / 2))⟩ := by
  have hex : extractPairs (pairsToMessages ps) = ps := extractPairs_pairsToMessages ps hps
  have hlen' : 3 < ps.length := by
    simpa [MEMORY_CONFIG_window_size] using hlen
  have hne : (pairsToMessages ps).isEmpty = false := by
    cases ps with
    | nil => simp at hlen'
    | cons p ps' => simp [pairsToMessages]
  have hrec : recentPairs st.max_memory_size (pairsToMessages ps)
      = ps.drop (ps.length - 3) := by
    simp [recentPairs, hex, hW, MEMORY_CONFIG_window_size]
  have hreclen : (ps.drop (ps.length - 3)).length = 3 := by
    simp [List.length_drop]
    omega
  have hwin : windowed st.max_memory_size (recentPairs st.max_memory_size (pairsToMessages ps))
      = ps.drop (ps.length - 3) := by
    rw [hrec, windowed, hreclen, hW]
    simp [MEMORY_CONFIG_window_size]
  rw [load_history_spec st cid minted _ hcid hk]
  constructor
  · simp only [hne, Bool.false_or, hrec]
    cases hd : ps.drop (ps.length - 3) with
    | nil => rw [hd] at hreclen; simp at hreclen
    | cons q qs => simp
  · have h3 : max 1 (MEMORY_CONFIG_window_size / 2) = 3 := by
      simp [MEMORY_CONFIG_window_size]
    simp only [setChat]
    rw [dictGet_dictSet, if_pos rfl, hwin, hW, h3]

/-- Witness for the amended C2: a concrete 7-pair transcript rehydrated into
a fresh manager retains exactly the pairs 5, 6, 7. -/
theorem C2_rehydrate_window_amended_witness :
    ("s1" : String) ≠ "" ∧
    initManager.max_memory_size = MEMORY_CONFIG_window_size ∧
    (∀ p ∈ ([("q1","a1"),("q2","a2"),("q3","a3"),("q4","a4"),("q5","a5"),("q6","a6"),("q7","a7")] : List TurnPair), p.1 ≠ "" ∧ p.2 ≠ "") ∧
    max 1 (MEMORY_CONFIG_window_size / 2) < ([("q1","a1"),("q2","a2"),("q3","a3"),("q4","a4"),("q5","a5"),("q6","a6"),("q7","a7")] : List TurnPair).length ∧
    ((load_chat_messages_from_history initManager "s1" "u0" (pairsToMessages [("q1","a1"),("q2","a2"),("q3","a3"),("q4","a4"),("q5","a5"),("q6","a6"),("q7","a7")])).1 = true ∧
     dictGet (load_chat_messages_from_history initManager "s1" "u0" (pairsToMessages [("q1","a1"),("q2","a2"),("q3","a3"),("q4","a4"),("q5","a5"),("q6","a6"),("q7","a7")])).2.chat_memories "s1"
       = some ⟨MEMORY_CONFIG_window_size, ([("q1","a1"),("q2","a2"),("q3","a3"),("q4","a4"),("q5","a5"),("q6","a6"),("q7","a7")] : List TurnPair).drop (([("q1","a1"),("q2","a2"),("q3","a3"),("q4","a4"),("q5","a5"),("q6","a6"),("q7","a7")] : List TurnPair).length - max 1 (MEMORY_CONFIG_window_size / 2))⟩) := by
  refine ⟨by decide, rfl, by decide, by decide, ?_⟩
  exact C2_rehydrate_window_amended initManager "s1" "u0"
    [("q1","a1"),("q2","a2"),("q3","a3"),("q4","a4"),("q5","a5"),("q6","a6"),("q7","a7")]
    (by decide) rfl
    (fun m hm => by simp [initManager, dictGet] at hm)
    (by decide) (by decide)

/-! ## Claim C3 -/

/-- C3: context assembly on an empty document list returns the fixed
"no information found" text with empty sources and relevance 0.0, and on a
non-empty list whose documents all score below the relevance threshold it
returns the distinct "low relevance" text — not the no-documents text — also
with empty sources and relevance 0.0. -/
theorem C3_context_empty_and_low_relevance :
    get_enhanced_context [] = ⟨noInfoText, [], 0⟩ ∧
    lowRelevanceText ≠ noInfoText ∧
    ∀ documents : List Document, documents ≠ [] →
      (∀ d ∈ documents, docScore d < relevance_threshold) →
      get_enhanced_context documents = ⟨lowRelevanceText, [], 0⟩ := by
  refine ⟨rfl, by decide, ?_⟩
  intro docs hne hlow
  have hfil : filteredDocs docs = [] := by
    rw [filteredDocs, List.filter_eq_nil_iff]
    intro d hd
    have hd' : d ∈ docs := by
      rw [sortDocsDesc] at hd
      exact (List.mem_insertionSort docGE).mp hd
    simp only [decide_eq_true_eq, not_le]
    exact hlow d hd'
  have hsel : selectedDocs docs = [] := by simp [selectedDocs, hfil]
  have hne' : docs.isEmpty = false := by
    cases docs with
    | nil => exact absurd rfl hne
    | cons d ds => rfl
  simp [get_enhanced_context, hne', hsel]

/-- Witness for C3: a single document scoring 0.1 < 0.3 produces the
low-relevance result. -/
theorem C3_context_empty_and_low_relevance_witness :
    ([⟨"c", some (mkRat 1 10), none, none⟩] : List Document) ≠ [] ∧
    (∀ d ∈ ([⟨"c", some (mkRat 1 10), none, none⟩] : List Document), docScore d < relevance_threshold) ∧
    get_enhanced_context [⟨"c", some (mkRat 1 10), none, none⟩] = ⟨lowRelevanceText, [], 0⟩ := by
  refine ⟨by decide, by decide, ?_⟩
  exact C3_context_empty_and_low_relevance.2.2 [⟨"c", some (mkRat 1 10), none, none⟩]
    (by decide) (by decide)

/-! ## Claim C4 -/

/-- C4: for every non-empty document list, context assembly stably sorts the
documents by defaulted relevance score descending (ties keep original
retrieval order, a missing score defaults to 0.5), removes documents scoring
below the 0.3 threshold, retains at most `max_docs` (5) of the remainder in
that order, and returns as aggregate relevance the arithmetic mean of the
retained documents' scores (0 when none are retained). -/
theorem C4_context_assembly_pipeline (documents : List Document)
    (hne : documents ≠ []) :
    (selectedDocs documents).length ≤ max_docs ∧
    (∀ d ∈ selectedDocs documents, relevance_threshold ≤ docScore d) ∧
    (selectedDocs documents).Pairwise docGE ∧
    (∀ a b : Document, docScore a = docScore b → List.Sublist [a, b] documents →
        List.Sublist [a, b] (sortDocsDesc documents)) ∧
    (∀ d : Document, d.relevance_score = none → docScore d = mkRat 1 2) ∧
    (get_enhanced_context documents).sources
      = (List.enumFrom 1 (selectedDocs documents)).map (fun p => sourceEntry p.2 p.1) ∧
    (get_enhanced_context documents).relevance_score
      = (if (selectedDocs documents).isEmpty then 0
         else ((selectedDocs documents).map docScore).sum
            / ((selectedDocs documents).length : ℚ)) := by
  have hne' : documents.isEmpty = false := by
    cases documents with
    | nil => exact absurd rfl hne
    | cons d ds => rfl
  refine ⟨?_, ?_, ?_, ?_, ?_, ?_, ?_⟩
  · exact List.length_take_le max_docs (filteredDocs documents)
  · intro d hd
    have hd' : d ∈ filteredDocs documents :=
      (List.take_sublist max_docs (filteredDocs documents)).subset hd
    have := (List.mem_filter.mp hd').2
    simpa using this
  · have hsorted : (sortDocsDesc documents).Pairwise docGE := by
      rw [sortDocsDesc]
      exact List.sorted_insertionSort docGE documents
    have hfil : (filteredDocs documents).Pairwise docGE := by
      rw [filteredDocs]
      exact hsorted.filter _
    exact List.Pairwise.sublist (List.take_sublist max_docs (filteredDocs documents)) hfil
  · intro a b hab hsub
    rw [sortDocsDesc]
    exact List.sublist_insertionSort
      (List.pairwise_pair.mpr (le_of_eq hab.symm)) hsub
  · intro d hd
    simp [docScore, hd]
  · simp only [get_enhanced_context, hne', Bool.false_eq_true, if_false]
  · simp only [get_enhanced_context, hne', Bool.false_eq_true, if_false]

/-- Witness for C4 at a two-document list with one unscored document. -/
theorem C4_context_assembly_pipeline_witness :
    ([⟨"c1", some (mkRat 9 10), some "f1", some "p1"⟩, ⟨"c2", none, none, none⟩] : List Document) ≠ [] ∧
    (selectedDocs [⟨"c1", some (mkRat 9 10), some "f1", some "p1"⟩, ⟨"c2", none, none, none⟩]).length ≤ max_docs ∧
    (∀ d ∈ selectedDocs [⟨"c1", some (mkRat 9 10), some "f1", some "p1"⟩, ⟨"c2", none, none, none⟩], relevance_threshold ≤ docScore d) ∧
    (get_enhanced_context [⟨"c1", some (mkRat 9 10), some "f1", some "p1"⟩, ⟨"c2", none, none, none⟩]).relevance_score
      = (if (selectedDocs [⟨"c1", some (mkRat 9 10), some "f1", some "p1"⟩, ⟨"c2", none, none, none⟩]).isEmpty then 0
         else ((selectedDocs [⟨"c1", some (mkRat 9 10), some "f1", some "p1"⟩, ⟨"c2", none, none, none⟩]).map docScore).sum
            / ((selectedDocs [⟨"c1", some (mkRat 9 10), some "f1", some "p1"⟩, ⟨"c2", none, none, none⟩]).length : ℚ)) := by
  have h := C4_context_assembly_pipeline
    [⟨"c1", some (mkRat 9 10), some "f1", some "p1"⟩, ⟨"c2", none, none, none⟩]
    (by decide)
  exact ⟨by decide, h.1, h.2.1, h.2.2.2.2.2.2⟩

/-! ## Claim C5 -/

/-- C5: an empty, whitespace-only, or over-long (more than 2000 characters)
query makes `process_query` yield exactly one validation-error fragment and
return with the memory-manager state untouched — no retrieval or generation
is invoked and nothing is committed to any conversational buffer. -/
theorem C5_invalid_query_short_circuit (env : PipelineEnv) (st : ChatMemoryManager)
    (query chat_id minted : String)
    (h : pyStrip query = "" ∨ 2000 < query.length) :
    process_query env st query chat_id minted
      = ⟨["Invalid query: " ++ (validate_query query).reason], false, false, st⟩ ∧
    (validate_query query).valid = false := by
  have hv : (validate_query query).valid = false := by
    rw [validate_query]
    by_cases hstrip : pyStrip query = ""
    · simp [hstrip]
    · have hlen : 2000 < query.length := h.resolve_left hstrip
      have hq : query ≠ "" := by
        intro hq
        subst hq
        exact hstrip rfl
      have hone : ¬ (pyStrip query).length < 1 := by
        intro hlt
        exact hstrip (string_eq_empty_of_length_lt_one _ hlt)
      simp [hq, hstrip, hone, hlen]
  refine ⟨?_, hv⟩
  rw [process_query, hv]
  simp

/-- Witness for C5 at the whitespace-only query `"   "`. -/
theorem C5_invalid_query_short_circuit_witness :
    (pyStrip "   " = "" ∨ 2000 < ("   " : String).length) ∧
    process_query ⟨true, [("a", mkRat 1 1)]⟩ initManager "   " "s1" "u0"
      = ⟨["Invalid query: " ++ (validate_query "   ").reason], false, false, initManager⟩ := by
  refine ⟨Or.inl (by decide), ?_⟩
  exact (C5_invalid_query_short_circuit ⟨true, [("a", mkRat 1 1)]⟩ initManager
    "   " "s1" "u0" (Or.inl (by decide))).1

/-! ## Claim C6 -/

theorem switch_to_chat_registry (st : ChatMemoryManager) (cid minted : String)
    (hcid : cid ≠ "") :
    (switch_to_chat st cid minted).2.current_chat_id = some cid ∧
    ∃ m, dictGet (switch_to_chat st cid minted).2.chat_memories cid = some m := by
  refine ⟨rfl, ?_⟩
  by_cases hp : (dictGet st.chat_memories cid).isSome
  · obtain ⟨m0, hm0⟩ := Option.isSome_iff_exists.mp hp
    exact ⟨m0, by simp [switch_to_chat, hp, hm0]⟩
  · refine ⟨ConversationBufferWindowMemory.init st.max_memory_size, ?_⟩
    simp [switch_to_chat, hp, create_new_chat_memory, hcid, dictGet_dictSet]

/-- C6: when the streamed generation call exceeds the 60-second ceiling,
`process_query` stops consuming further fragments while every fragment
already yielded is preserved, and the accumulated response is committed to
the focused session's buffer exactly when it is non-blank after stripping —
a blank full response leaves the registry untouched. -/
theorem C6_streaming_timeout_and_commit (env : PipelineEnv) (st : ChatMemoryManager)
    (query chat_id minted : String)
    (hq : (validate_query query).valid = true)
    (hchain : env.chain_available = true)
    (hcid : chat_id ≠ "") :
    (∀ pre c t post, env.chunks = pre ++ (c, t) :: post →
        (∀ p ∈ pre, ¬ streaming_timeout_seconds < p.2) → c ≠ "" →
        streaming_timeout_seconds < t →
        (process_query env st query chat_id minted).fragments
          = (pre.filter (fun p => !(p.1 = "" : Bool))).map Prod.fst ++ [c]) ∧
    (process_query env st query chat_id minted).fragments = consumeStream env.chunks ∧
    (process_query env st query chat_id minted).generationInvoked = true ∧
    ((process_query env st query chat_id minted).committed = true ↔
        pyStrip (String.join (consumeStream env.chunks)) ≠ "") ∧
    (pyStrip (String.join (consumeStream env.chunks)) = "" →
        (process_query env st query chat_id minted).finalState
          = (switch_to_chat st chat_id minted).2) ∧
    (∀ m, pyStrip (String.join (consumeStream env.chunks)) ≠ "" →
        dictGet (switch_to_chat st chat_id minted).2.chat_memories chat_id = some m →
        dictGet (process_query env st query chat_id minted).finalState.chat_memories chat_id
          = some (saveContextMem m ((validate_query query).processed_query,
              String.join (consumeStream env.chunks)))) := by
  obtain ⟨hcur, m0, hm0⟩ := switch_to_chat_registry st chat_id minted hcid
  have hout : process_query env st query chat_id minted
      = (if !(pyStrip (String.join (consumeStream env.chunks)) = "" : Bool) then
          ⟨consumeStream env.chunks, true,
           (save_context (switch_to_chat st chat_id minted).2
             (validate_query query).processed_query (String.join (consumeStream env.chunks))).1,
           (save_context (switch_to_chat st chat_id minted).2
             (validate_query query).processed_query (String.join (consumeStream env.chunks))).2⟩
         else
          ⟨consumeStream env.chunks, true, false, (switch_to_chat st chat_id minted).2⟩) := by
    rw [process_query, hq]
    simp only [Bool.not_true, Bool.false_eq_true, if_false, hcid, hchain]
    split <;> simp [hcid]
  have hsave : save_context (switch_to_chat st chat_id minted).2
      (validate_query query).processed_query (String.join (consumeStream env.chunks))
      = (true, { (switch_to_chat st chat_id minted).2 with
          chat_memories := dictSet (switch_to_chat st chat_id minted).2.chat_memories chat_id (saveContextMem m0 ((validate_query query).processed_query, String.join (consumeStream env.chunks))) }) := by
    simp [save_context, hcur, hcid, hm0]
  by_cases hblank : pyStrip (String.join (consumeStream env.chunks)) = ""
  · rw [hout, if_neg (by simp [hblank])]
    refine ⟨?_, rfl, rfl, by simp [hblank], fun _ => rfl, fun m hne _ => absurd hblank hne⟩
    intro pre c t post hchunks hpre hc ht
    show consumeStream env.chunks = _
    rw [hchunks, consumeStream_append_of_no_timeout pre _ hpre,
      consumeStream_timeout c t post hc ht]
  · rw [hout, if_pos (by simp [hblank]), hsave]
    refine ⟨?_, rfl, rfl, by simp [hblank], fun hb => absurd hb hblank, ?_⟩
    · intro pre c t post hchunks hpre hc ht
      show consumeStream env.chunks = _
      rw [hchunks, consumeStream_append_of_no_timeout pre _ hpre,
        consumeStream_timeout c t post hc ht]
    · intro m hne hget
      rw [hm0] at hget
      obtain rfl : m0 = m := Option.some_inj.mp hget
      show dictGet (dictSet (switch_to_chat st chat_id minted).2.chat_memories chat_id _) chat_id = _
      rw [dictGet_dictSet, if_pos rfl]

/-- Witness for C6: chunk "b" arrives after 61 s, so "c" is never consumed;
the partial answer "ab" is still committed to session `s1`. -/
theorem C6_streaming_timeout_and_commit_witness :
    (validate_query " hi ").valid = true ∧
    ("s1" : String) ≠ "" ∧
    (process_query ⟨true, [("a", mkRat 1 1), ("b", mkRat 61 1), ("c", mkRat 2 1)]⟩ initManager " hi " "s1" "u0").fragments
      = consumeStream [("a", mkRat 1 1), ("b", mkRat 61 1), ("c", mkRat 2 1)] ∧
    ((process_query ⟨true, [("a", mkRat 1 1), ("b", mkRat 61 1), ("c", mkRat 2 1)]⟩ initManager " hi " "s1" "u0").committed = true ↔
      pyStrip (String.join (consumeStream [("a", mkRat 1 1), ("b", mkRat 61 1), ("c", mkRat 2 1)])) ≠ "") := by
  have h := C6_streaming_timeout_and_commit
    ⟨true, [("a", mkRat 1 1), ("b", mkRat 61 1), ("c", mkRat 2 1)]⟩ initManager
    " hi " "s1" "u0" (by decide) rfl (by decide)
  exact ⟨by decide, by decide, h.2.1, h.2.2.2.1⟩

/-! ## Claim C7 -/

theorem recentPairs_eq_nil_iff (W : Nat) (msgs : List Message) :
    recentPairs W msgs = [] ↔ extractPairs msgs = [] := by
  rw [recentPairs]
  constructor
  · intro h
    have hle := List.drop_eq_nil_iff.mp h
    have h1 : 1 ≤ max 1 (W / 2) := le_max_left 1 (W / 2)
    apply List.length_eq_zero.mp
    omega
  · intro h
    rw [h]
    simp

/-- C7: during rehydration, a malformed adjacent pair (wrong role tag or
missing content) is skipped with a warning while the surrounding valid pairs
are still extracted and loaded; the call reports success exactly when at
least one pair was loaded or the transcript was empty, and reports failure on
a non-empty transcript from which no pair could be loaded. -/
theorem C7_rehydrate_malformed_skip :
    (∀ (pre : List Message) (u a : Message) (post : List Message),
        pre.length % 2 = 0 → validPair u a = false →
        extractPairs (pre ++ u :: a :: post) = extractPairs pre ++ extractPairs post ∧
        invalidPairCount (pre ++ u :: a :: post)
          = invalidPairCount pre + 1 + invalidPairCount post) ∧
    (∀ (st : ChatMemoryManager) (cid minted : String) (msgs : List Message),
        cid ≠ "" →
        (∀ m, dictGet st.chat_memories cid = some m → m.k = st.max_memory_size) →
        ((load_chat_messages_from_history st cid minted msgs).1 = true ↔
            (msgs = [] ∨ extractPairs msgs ≠ [])) ∧
        dictGet (load_chat_messages_from_history st cid minted msgs).2.chat_memories cid
          = some ⟨st.max_memory_size,
              windowed st.max_memory_size (recentPairs st.max_memory_size msgs)⟩) := by
  constructor
  · intro pre u a post hpre hval
    constructor
    · rw [extractPairs_even_append pre (u :: a :: post) hpre, extractPairs]
      simp [hval]
    · rw [invalidPairCount_even_append pre (u :: a :: post) hpre, invalidPairCount]
      simp only [hval, Bool.false_eq_true, if_false]
      omega
  · intro st cid minted msgs hcid hk
    rw [load_history_spec st cid minted msgs hcid hk]
    constructor
    · by_cases hm : msgs = []
      · subst hm
        simp
      · have hm' : msgs.isEmpty = false := List.isEmpty_eq_false.mpr hm
        simp only [hm', Bool.false_or, hm, false_or]
        rw [Bool.not_eq_true', List.isEmpty_eq_false]  -- massage !isEmpty
        constructor
        · intro hr
          exact fun hext => hr ((recentPairs_eq_nil_iff _ _).mpr hext)
        · intro hext hr
          exact hext ((recentPairs_eq_nil_iff _ _).mp hr)
    · simp only [setChat]
      rw [dictGet_dictSet, if_pos rfl]

/-- Witness for C7: a transcript of a valid pair, a malformed pair (wrong
assistant role tag), and another valid pair loads the two valid pairs and
reports success; an all-malformed non-empty transcript reports failure. -/
theorem C7_rehydrate_malformed_skip_witness :
    (([⟨"user","q1"⟩, ⟨"Virtual Assistant","a1"⟩] : List Message).length % 2 = 0 ∧
     validPair ⟨"user","q2"⟩ ⟨"assistant","a2"⟩ = false ∧
     extractPairs ([⟨"user","q1"⟩, ⟨"Virtual Assistant","a1"⟩] ++ ⟨"user","q2"⟩ :: ⟨"assistant","a2"⟩ :: [⟨"user","q3"⟩, ⟨"Virtual Assistant","a3"⟩])
       = extractPairs [⟨"user","q1"⟩, ⟨"Virtual Assistant","a1"⟩] ++ extractPairs [⟨"user","q3"⟩, ⟨"Virtual Assistant","a3"⟩]) ∧
    (("s1" : String) ≠ "" ∧
     ((load_chat_messages_from_history initManager "s1" "u0" [⟨"user","q1"⟩, ⟨"Virtual Assistant","a1"⟩, ⟨"user","q2"⟩, ⟨"assistant","a2"⟩, ⟨"user","q3"⟩, ⟨"Virtual Assistant","a3"⟩]).1 = true ↔
        ([⟨"user","q1"⟩, ⟨"Virtual Assistant","a1"⟩, ⟨"user","q2"⟩, ⟨"assistant","a2"⟩, ⟨"user","q3"⟩, ⟨"Virtual Assistant","a3"⟩] = ([] : List Message) ∨
         extractPairs [⟨"user","q1"⟩, ⟨"Virtual Assistant","a1"⟩, ⟨"user","q2"⟩, ⟨"assistant","a2"⟩, ⟨"user","q3"⟩, ⟨"Virtual Assistant","a3"⟩] ≠ []))) ∧
    (load_chat_messages_from_history initManager "s2" "u0" [⟨"user","q9"⟩, ⟨"assistant","a9"⟩]).1 = false := by
  refine ⟨⟨by decide, by decide, ?_⟩, ⟨by decide, ?_⟩, by decide⟩
  · exact ((C7_rehydrate_malformed_skip.1 [⟨"user","q1"⟩, ⟨"Virtual Assistant","a1"⟩]
      ⟨"user","q2"⟩ ⟨"assistant","a2"⟩ [⟨"user","q3"⟩, ⟨"Virtual Assistant","a3"⟩]
      (by decide) (by decide)).1)
  · exact (C7_rehydrate_malformed_skip.2 initManager "s1" "u0"
      [⟨"user","q1"⟩, ⟨"Virtual Assistant","a1"⟩, ⟨"user","q2"⟩, ⟨"assistant","a2"⟩, ⟨"user","q3"⟩, ⟨"Virtual Assistant","a3"⟩]
      (by decide) (fun m hm => by simp [initManager, dictGet] at hm)).1

/-! ## Claim C8 -/

/-- C8: `delete_chat_memory` removes a present session's buffer entirely and
reports success; if the deleted session was focused the focus pointer is
cleared and a subsequent read returns the empty sequence; deleting an absent
id reports failure and leaves the whole state — registry, focus pointer, and
every other buffer — unchanged. -/
theorem C8_delete_session (st : ChatMemoryManager) (cid : String) :
    (∀ m, dictGet st.chat_memories cid = some m →
        (delete_chat_memory st cid).1 = true ∧
        dictGet (delete_chat_memory st cid).2.chat_memories cid = none ∧
        (∀ c, c ≠ cid → dictGet (delete_chat_memory st cid).2.chat_memories c
            = dictGet st.chat_memories c) ∧
        (st.current_chat_id = some cid →
            (delete_chat_memory st cid).2.current_chat_id = none ∧
            load_memory_variables (delete_chat_memory st cid).2 = []) ∧
        (st.current_chat_id ≠ some cid →
            (delete_chat_memory st cid).2.current_chat_id = st.current_chat_id)) ∧
    (dictGet st.chat_memories cid = none → delete_chat_memory st cid = (false, st)) := by
  constructor
  · intro m hm
    have hp : (dictGet st.chat_memories cid).isSome = true := by rw [hm]; rfl
    by_cases hcur : st.current_chat_id = some cid
    · have hdel : delete_chat_memory st cid
          = (true, { st with chat_memories := dictDel st.chat_memories cid, current_chat_id := none }) := by
        simp [delete_chat_memory, hp, hcur]
      rw [hdel]
      refine ⟨rfl, ?_, ?_, fun _ => ⟨rfl, rfl⟩, fun h => absurd hcur h⟩
      · show dictGet (dictDel st.chat_memories cid) cid = none
        rw [dictGet_dictDel, if_pos rfl]
      · intro c hc
        show dictGet (dictDel st.chat_memories cid) c = _
        rw [dictGet_dictDel, if_neg (Ne.symm hc)]
    · have hdel : delete_chat_memory st cid
          = (true, { st with chat_memories := dictDel st.chat_memories cid }) := by
        simp [delete_chat_memory, hp, hcur]
      rw [hdel]
      refine ⟨rfl, ?_, ?_, fun h => absurd h hcur, fun _ => rfl⟩
      · show dictGet (dictDel st.chat_memories cid) cid = none
        rw [dictGet_dictDel, if_pos rfl]
      · intro c hc
        show dictGet (dictDel st.chat_memories cid) c = _
        rw [dictGet_dictDel, if_neg (Ne.symm hc)]
  · intro hnone
    have hp : (dictGet st.chat_memories cid).isSome = false := by rw [hnone]; rfl
    simp [delete_chat_memory, hp]

/-- Witness for C8: deleting the focused session `"a"` of a concrete manager
clears focus and makes reads return the empty sequence; deleting the absent
id `"b"` fails and changes nothing. -/
theorem C8_delete_session_witness :
    dictGet (switch_to_chat initManager "a" "u").2.chat_memories "a"
      = some (ConversationBufferWindowMemory.init 6) ∧
    ((delete_chat_memory (switch_to_chat initManager "a" "u").2 "a").1 = true ∧
     dictGet (delete_chat_memory (switch_to_chat initManager "a" "u").2 "a").2.chat_memories "a" = none ∧
     (delete_chat_memory (switch_to_chat initManager "a" "u").2 "a").2.current_chat_id = none ∧
     load_memory_variables (delete_chat_memory (switch_to_chat initManager "a" "u").2 "a").2 = []) ∧
    (dictGet (switch_to_chat initManager "a" "u").2.chat_memories "b" = none ∧
     delete_chat_memory (switch_to_chat initManager "a" "u").2 "b"
       = (false, (switch_to_chat initManager "a" "u").2)) := by
  have h := C8_delete_session (switch_to_chat initManager "a" "u").2 "a"
  have h1 := h.1 (ConversationBufferWindowMemory.init 6) (by decide)
  have h2 := (C8_delete_session (switch_to_chat initManager "a" "u").2 "b").2 (by decide)
  exact ⟨by decide, ⟨h1.1, h1.2.1, (h1.2.2.2.1 (by decide)).1, (h1.2.2.2.1 (by decide)).2⟩,
    by decide, h2⟩

/-! ## Claim C9 -/

/-- C9 fails on the code: `create_new_chat_memory` assigns a fresh empty
buffer unconditionally, so an identifier that already has a buffer does not
keep that buffer's contents — after committing ("q", "r") to session "a",
calling `create_new_chat_memory` on "a" again leaves an empty buffer. -/
theorem C9_create_or_get_counterexample :
    dictGet (save_context (switch_to_chat (create_new_chat_memory initManager "a" "u").2 "a" "u").2 "q" "r").2.chat_memories "a" = some ⟨6, [("q", "r")]⟩ ∧
    dictGet (create_new_chat_memory (save_context (switch_to_chat (create_new_chat_memory initManager "a" "u").2 "a" "u").2 "q" "r").2 "a" "u2").2.chat_memories "a" = some ⟨6, []⟩ ∧
    some (⟨6, []⟩ : ConversationBufferWindowMemory) ≠ some (⟨6, [("q", "r")]⟩ : ConversationBufferWindowMemory) := by
  decide

/-- C9 (amended): `create_new_chat_memory` called with a falsy identifier
returns the freshly minted id, and otherwise the given id; in every case it
allocates a fresh empty bounded buffer for that id, replacing any buffer the
id already had (existing contents are discarded, not kept); every other
session's buffer, the focus pointer, and the configured window size are
unchanged, and the operation is total (it never errors). -/
theorem C9_create_or_get_amended (st : ChatMemoryManager) (chat_id minted : String) :
    ((create_new_chat_memory st chat_id minted).1
        = (if chat_id = "" then minted else chat_id)) ∧
    dictGet (create_new_chat_memory st chat_id minted).2.chat_memories
        (create_new_chat_memory st chat_id minted).1
      = some (ConversationBufferWindowMemory.init st.max_memory_size) ∧
    (∀ c, c ≠ (create_new_chat_memory st chat_id minted).1 →
        dictGet (create_new_chat_memory st chat_id minted).2.chat_memories c
          = dictGet st.chat_memories c) ∧
    (create_new_chat_memory st chat_id minted).2.current_chat_id = st.current_chat_id ∧
    (create_new_chat_memory st chat_id minted).2.max_memory_size = st.max_memory_size := by
  refine ⟨rfl, ?_, ?_, rfl, rfl⟩
  · show dictGet (dictSet st.chat_memories (if chat_id = "" then minted else chat_id) (ConversationBufferWindowMemory.init st.max_memory_size)) (if chat_id = "" then minted else chat_id) = _
    rw [dictGet_dictSet, if_pos rfl]
  · intro c hc
    have hc2 : ¬ ((if chat_id = "" then minted else chat_id) = c) :=
      fun h => hc (show c = (create_new_chat_memory st chat_id minted).1 from h.symm)
    show dictGet (dictSet st.chat_memories (if chat_id = "" then minted else chat_id) (ConversationBufferWindowMemory.init st.max_memory_size)) c = _
    rw [dictGet_dictSet, if_neg hc2]

/-- Witness for the amended C9: creating with the falsy id `""` mints `"u1"`
and allocates an empty buffer there, leaving the other session untouched. -/
theorem C9_create_or_get_amended_witness :
    (create_new_chat_memory (switch_to_chat initManager "a" "u").2 "" "u1").1
      = (if ("" : String) = "" then "u1" else "") ∧
    dictGet (create_new_chat_memory (switch_to_chat initManager "a" "u").2 "" "u1").2.chat_memories
        (create_new_chat_memory (switch_to_chat initManager "a" "u").2 "" "u1").1
      = some (ConversationBufferWindowMemory.init (switch_to_chat initManager "a" "u").2.max_memory_size) ∧
    ("a" : String) ≠ (create_new_chat_memory (switch_to_chat initManager "a" "u").2 "" "u1").1 ∧
    dictGet (create_new_chat_memory (switch_to_chat initManager "a" "u").2 "" "u1").2.chat_memories "a"
      = dictGet (switch_to_chat initManager "a" "u").2.chat_memories "a" := by
  have h := C9_create_or_get_amended (switch_to_chat initManager "a" "u").2 "" "u1"
  exact ⟨h.1, h.2.1, by decide, h.2.2.1 "a" (by decide)⟩

/-! ## Claim C10 -/

/-- C10 fails on the code: a transcript consisting of a single unpaired
message makes rehydration report failure, while the empty transcript reports
success — so the trailing message does, by itself, flip the call's result to
failure. -/
theorem C10_trailing_message_counterexample :
    (load_chat_messages_from_history initManager "s1" "u0" [⟨"user", "hi"⟩]).1 = false ∧
    (load_chat_messages_from_history initManager "s1" "u0" ([] : List Message)).1 = true := by
  decide

/-- C10 (amended): the final unpaired message of an odd-length transcript is
never loaded and produces no warning, and whenever the transcript contains at
least one complete pair slot (its even prefix is non-empty) it leaves the
call's entire result unchanged; however a transcript consisting of only the
unpaired message reports failure (zero pairs loaded from a non-empty
transcript), unlike the empty transcript which reports success. -/
theorem C10_trailing_message_amended (st : ChatMemoryManager) (cid minted : String)
    (msgs : List Message) (m : Message)
    (heven : msgs.length % 2 = 0) (hne : msgs ≠ []) :
    load_chat_messages_from_history st cid minted (msgs ++ [m])
      = load_chat_messages_from_history st cid minted msgs ∧
    extractPairs (msgs ++ [m]) = extractPairs msgs ∧
    invalidPairCount (msgs ++ [m]) = invalidPairCount msgs ∧
    (∀ (u : Message), (load_chat_messages_from_history st cid minted [u]).1 = false) := by
  have hex : extractPairs (msgs ++ [m]) = extractPairs msgs := by
    rw [extractPairs_even_append msgs [m] heven]
    simp [extractPairs]
  have hinv : invalidPairCount (msgs ++ [m]) = invalidPairCount msgs := by
    rw [invalidPairCount_even_append msgs [m] heven]
    simp [invalidPairCount]
  refine ⟨?_, hex, hinv, ?_⟩
  · have h1 : (msgs ++ [m]).isEmpty = false := by simp
    have h2 : msgs.isEmpty = false := List.isEmpty_eq_false.mpr hne
    simp only [load_chat_messages_from_history, switch_to_chat, hex, h1, h2]
  · intro u
    have he : extractPairs [u] = [] := rfl
    simp [load_chat_messages_from_history, switch_to_chat, he, loadPairsLoop]

/-- Witness for the amended C10: appending a dangling user message to a
one-pair transcript changes nothing about the rehydration outcome, while the
dangling message alone produces a failure report. -/
theorem C10_trailing_message_amended_witness :
    ([⟨"user","q1"⟩, ⟨"Virtual Assistant","a1"⟩] : List Message).length % 2 = 0 ∧
    ([⟨"user","q1"⟩, ⟨"Virtual Assistant","a1"⟩] : List Message) ≠ [] ∧
    (load_chat_messages_from_history initManager "s1" "u0" ([⟨"user","q1"⟩, ⟨"Virtual Assistant","a1"⟩] ++ [⟨"user","dangling"⟩])
      = load_chat_messages_from_history initManager "s1" "u0" [⟨"user","q1"⟩, ⟨"Virtual Assistant","a1"⟩] ∧
     extractPairs ([⟨"user","q1"⟩, ⟨"Virtual Assistant","a1"⟩] ++ [⟨"user","dangling"⟩])
       = extractPairs [⟨"user","q1"⟩, ⟨"Virtual Assistant","a1"⟩] ∧
     invalidPairCount ([⟨"user","q1"⟩, ⟨"Virtual Assistant","a1"⟩] ++ [⟨"user","dangling"⟩])
       = invalidPairCount [⟨"user","q1"⟩, ⟨"Virtual Assistant","a1"⟩] ∧
     (∀ (u : Message), (load_chat_messages_from_history initManager "s1" "u0" [u]).1 = false)) := by
  refine ⟨by decide, by decide, ?_⟩
  exact C10_trailing_message_amended initManager "s1" "u0"
    [⟨"user","q1"⟩, ⟨"Virtual Assistant","a1"⟩] ⟨"user","dangling"⟩
    (by decide) (by decide)

end SmartSeva
